import Mathlib

/-!
Verification of the Seattle Fire Real-Time 911 watcher
(realtime.py, incident.py) against its design specification.

The development is a shallow embedding: the handler methods of
RealTimeParser become pure transition functions over an explicit
ParserState driven by a stream of markup events (the tokenization
performed by the standard html.parser base class is abstracted as the
event list); the RealTime reconciliation engine becomes explicit state
passing over an association list modelling the id-keyed dict; fallible
operations (tuple unpacking, strptime, dict lookup) return Except.
Printed notifications are modelled as emitted Msg values.
-/

set_option maxHeartbeats 1000000

/-- Model of the Python error values that the embedded code can raise:
ValueError (unpack arity mismatch, strptime failure), KeyError
(missing dict key), AttributeError (method call on None). -/
inductive PyError
  | valueError
  | keyError
  | attributeError
deriving DecidableEq, Repr

/-- A Python value that is either a string or an integer.  Only the
level field of a row ever holds an integer (the literal 0 default). -/
inductive PyValue
  | str (s : String)
  | int (n : Int)
deriving DecidableEq, Repr

/-- Character-level model of the Python str.split(sep) method for a
single-character separator: splitting the empty string yields one empty
token, and adjacent separators yield empty tokens. -/
def pySplitChars (sep : Char) : List Char → List String
  | [] => [""]
  | c :: rest =>
    let r := pySplitChars sep rest
    if c = sep then "" :: r
    else
      match r with
      | [] => [String.mk [c]]
      | h :: t => String.mk (c :: h.data) :: t

/-- Model of str.split(sep) on a String, via pySplitChars. -/
def pySplit (sep : Char) (s : String) : List String :=
  pySplitChars sep s.data

/-- Model of the test "not data.strip()": true when the string contains
only whitespace (or is empty). -/
def isBlank (s : String) : Bool :=
  s.data.all (fun c => c.isWhitespace)

/-- Model of the attribute test id.startswith applied with the literal
string used in handle_row. -/
def startsWithRow (s : String) : Bool :=
  match s.data with
  | 'r' :: 'o' :: 'w' :: '_' :: _ => true
  | _ => false

/-- The IncidentColumn enumeration from realtime.py. -/
inductive IncidentColumn
  | INVALID
  | DATETIME
  | ID
  | LEVEL
  | UNITS
  | LOCATION
  | TYPE
deriving DecidableEq, Repr

/-- Model of the enum successor IncidentColumn(value + 1).  It is only
invoked by handle_data when the current column is neither INVALID nor
TYPE, so the TYPE clause is never reached. -/
def IncidentColumn.next : IncidentColumn → IncidentColumn
  | .INVALID => .DATETIME
  | .DATETIME => .ID
  | .ID => .LEVEL
  | .LEVEL => .UNITS
  | .UNITS => .LOCATION
  | .LOCATION => .TYPE
  | .TYPE => .TYPE

/-- The IncidentRow record from realtime.py.  The level field holds a
PyValue because the five-field unpacking path stores the integer 0
while the six-field path stores the captured string. -/
structure IncidentRow where
  datetime : String
  id : String
  level : PyValue
  units : String
  loc : String
  typ : String
deriving DecidableEq, Repr

/-- The mutable state of RealTimeParser: the expected-column marker
next_td, the emitted rows, and the per-row column cache. -/
structure ParserState where
  next_td : IncidentColumn
  rows : List IncidentRow
  cache : List String
deriving DecidableEq, Repr

/-- A markup event handed to the parser by the tokenizer of the
html.parser base class: an opening tag with attributes, a closing tag,
or character data. -/
inductive HtmlEvent
  | startTag (tag : String) (attrs : List (String × Option String))
  | endTag (tag : String)
  | data (s : String)
deriving DecidableEq, Repr

/-- The fresh parser produced by RealTimeParser.init: INVALID column,
no rows, empty cache. -/
def mkParser : ParserState :=
  ⟨.INVALID, [], []⟩

/-- Model of RealTimeParser.handle_row: scans the attributes and flips
the expected column to DATETIME on an id attribute whose value starts
with the row marker.  An id attribute without a value makes the Python
code call startswith on None, raising AttributeError. -/
def handle_row : List (String × Option String) → IncidentColumn → Except PyError IncidentColumn
  | [], col => .ok col
  | (n, v) :: rest, col =>
    if n = "id" then
      match v with
      | none => .error .attributeError
      | some s => handle_row rest (if startsWithRow s then .DATETIME else col)
    else handle_row rest col

/-- Model of RealTimeParser.handle_cell: scans the attributes and
suppresses the rest of the row (INVALID) on a class attribute whose
value is not the active marker.  A valueless class attribute compares
unequal to the marker, so it also suppresses. -/
def handle_cell : List (String × Option String) → IncidentColumn → IncidentColumn
  | [], col => col
  | (n, v) :: rest, col =>
    handle_cell rest (if n = "class" ∧ v ≠ some "active" then .INVALID else col)

/-- Model of RealTimeParser.handle_starttag: tr tags go to handle_row,
td tags go to handle_cell when a row is in progress. -/
def handle_starttag (tag : String) (attrs : List (String × Option String))
    (st : ParserState) : Except PyError ParserState :=
  if tag = "tr" then
    match handle_row attrs st.next_td with
    | .error e => .error e
    | .ok col => .ok { st with next_td := col }
  else if tag = "td" ∧ st.next_td ≠ .INVALID then
    .ok { st with next_td := handle_cell attrs st.next_td }
  else .ok st

/-- Model of RealTimeParser.handle_endtag: a closing tr inside a valid
row context unpacks the cache into a row.  Fewer than six cached fields
go through the five-name unpacking (level defaults to the integer 0),
which raises ValueError unless exactly five fields are cached; six or
more go through the six-name unpacking, which raises ValueError unless
exactly six are cached. -/
def handle_endtag (tag : String) (st : ParserState) : Except PyError ParserState :=
  if tag = "tr" ∧ st.next_td ≠ .INVALID then
    if st.cache.length < 6 then
      match st.cache with
      | [dt, rid, units, loc, typ] =>
        .ok ⟨.INVALID, st.rows ++ [⟨dt, rid, .int 0, units, loc, typ⟩], []⟩
      | _ => .error .valueError
    else
      match st.cache with
      | [dt, rid, lvl, units, loc, typ] =>
        .ok ⟨.INVALID, st.rows ++ [⟨dt, rid, .str lvl, units, loc, typ⟩], []⟩
      | _ => .error .valueError
  else .ok st

/-- Model of RealTimeParser.handle_data: non-blank data inside a valid
row context is appended to the cache, and the expected column advances
unless it is already TYPE. -/
def handle_data (d : String) (st : ParserState) : ParserState :=
  if st.next_td = .INVALID then st
  else if isBlank d then st
  else
    let st1 : ParserState := { st with cache := st.cache ++ [d] }
    if st1.next_td ≠ .TYPE then { st1 with next_td := st1.next_td.next } else st1

/-- Dispatch of one markup event to the corresponding handler. -/
def processEvent (ev : HtmlEvent) (st : ParserState) : Except PyError ParserState :=
  match ev with
  | .startTag t a => handle_starttag t a st
  | .endTag t => handle_endtag t st
  | .data d => .ok (handle_data d st)

/-- Sequential processing of a document given as an event list; an
exception raised by a handler propagates and abandons the rest. -/
def processEvents : List HtmlEvent → ParserState → Except PyError ParserState
  | [], st => .ok st
  | ev :: rest, st =>
    match processEvent ev st with
    | .error e => .error e
    | .ok st1 => processEvents rest st1

/-- Model of RealTimeParser.feed: clears the previously emitted rows
(and only those; the cache and the expected column persist), then
processes the new document. -/
def feed (doc : List HtmlEvent) (st : ParserState) : Except PyError ParserState :=
  processEvents doc { st with rows := [] }

/-- Model of RealTimeParser.get_rows at the value level: the returned
sequence of rows. -/
def get_rows (st : ParserState) : List IncidentRow :=
  st.rows

/-! ### Timestamp parsing

Model of datetime.strptime with the fixed pattern used by incident.py:
month/day/four-digit-year, 12-hour time, AM or PM marker.  The CPython
implementation compiles the pattern to a regular expression (numeric
fields match one or two digits with the documented ranges, the year
exactly four digits, literal whitespace one or more whitespace
characters, the AM/PM marker case-insensitively) and then constructs a
datetime, which additionally validates the calendar day and rejects
leap seconds and year zero. -/

/-- Datetime value resulting from a successful strptime call. -/
structure PyDatetime where
  year : Nat
  month : Nat
  day : Nat
  hour : Nat
  minute : Nat
  second : Nat
deriving DecidableEq, Repr

/-- Takes the maximal leading run of decimal digits, as digit values. -/
def takeDigits : List Char → List Nat × List Char
  | [] => ([], [])
  | c :: rest =>
    if c.isDigit then
      let (ds, r) := takeDigits rest
      ((c.toNat - 48) :: ds, r)
    else ([], c :: rest)

/-- Matches a one- or two-digit numeric field with separate value
ranges for the one-digit and the two-digit form, mirroring the
alternation in the regular expressions CPython uses for the numeric
strptime directives. -/
def parseNum2 (lo1 hi1 lo2 hi2 : Nat) (cs : List Char) : Option (Nat × List Char) :=
  match takeDigits cs with
  | ([d], r) => if lo1 ≤ d ∧ d ≤ hi1 then some (d, r) else none
  | ([d1, d2], r) =>
    let v := d1 * 10 + d2
    if lo2 ≤ v ∧ v ≤ hi2 then some (v, r) else none
  | _ => none

/-- Matches exactly four digits, the strptime year directive. -/
def parseYear4 (cs : List Char) : Option (Nat × List Char) :=
  match takeDigits cs with
  | ([a, b, c, d], r) => some (a * 1000 + b * 100 + c * 10 + d, r)
  | _ => none

/-- Matches one literal character. -/
def expectChar (c : Char) : List Char → Option (List Char)
  | [] => none
  | c1 :: rest => if c1 = c then some rest else none

/-- Matches one or more whitespace characters, the translation of a
literal space inside a strptime format. -/
def skipWs1 : List Char → Option (List Char)
  | [] => none
  | c :: rest =>
    if c.isWhitespace then some (rest.dropWhile (fun x => x.isWhitespace)) else none

/-- Matches the AM or PM marker case-insensitively; returns true for
the PM half of the day. -/
def parseAmPm : List Char → Option (Bool × List Char)
  | c1 :: c2 :: rest =>
    if (c1 = 'A' ∨ c1 = 'a') ∧ (c2 = 'M' ∨ c2 = 'm') then some (false, rest)
    else if (c1 = 'P' ∨ c1 = 'p') ∧ (c2 = 'M' ∨ c2 = 'm') then some (true, rest)
    else none
  | _ => none

/-- True in the Gregorian leap years. -/
def isLeapYear (y : Nat) : Bool :=
  (y % 4 = 0 ∧ y % 100 ≠ 0) ∨ y % 400 = 0

/-- Number of days of a month, as validated by the datetime
constructor. -/
def daysInMonth (y m : Nat) : Nat :=
  if m = 2 then (if isLeapYear y then 29 else 28)
  else if m = 4 ∨ m = 6 ∨ m = 9 ∨ m = 11 then 30
  else 31

/-- Model of datetime.strptime with the fixed incident-timestamp
pattern.  Returns none exactly when the Python call raises ValueError:
either the regular expression does not match the whole string or the
datetime constructor rejects the field values. -/
def strptime (s : String) : Option PyDatetime :=
  match parseNum2 1 9 1 12 s.data with
  | none => none
  | some (m, cs) =>
    match expectChar '/' cs with
    | none => none
    | some cs =>
      match parseNum2 1 9 1 31 cs with
      | none => none
      | some (d, cs) =>
        match expectChar '/' cs with
        | none => none
        | some cs =>
          match parseYear4 cs with
          | none => none
          | some (y, cs) =>
            match skipWs1 cs with
            | none => none
            | some cs =>
              match parseNum2 1 9 1 12 cs with
              | none => none
              | some (h, cs) =>
                match expectChar ':' cs with
                | none => none
                | some cs =>
                  match parseNum2 0 9 0 59 cs with
                  | none => none
                  | some (mi, cs) =>
                    match expectChar ':' cs with
                    | none => none
                    | some cs =>
                      match parseNum2 0 9 0 61 cs with
                      | none => none
                      | some (sec, cs) =>
                        match skipWs1 cs with
                        | none => none
                        | some cs =>
                          match parseAmPm cs with
                          | none => none
                          | some (isPM, cs) =>
                            match cs with
                            | [] =>
                              if 1 ≤ y ∧ d ≤ daysInMonth y m ∧ sec ≤ 59 then
                                some ⟨y, m, d, h % 12 + (if isPM then 12 else 0), mi, sec⟩
                              else none
                            | _ => none

/-! ### Incident entity (incident.py) -/

/-- The notifications printed by the engine, modelled as structured
events: incident opened (id), type changed (address, old, new), unit
responding (unit, address), incident resolved (id of the removed
entry).  The wall-clock elapsed time in the resolved message is a
presentation detail outside the embedding. -/
inductive Msg
  | opened (id : String)
  | typeChanged (addr old new : String)
  | vehicle (unit addr : String)
  | resolved (id : String)
deriving DecidableEq, Repr

/-- The Incident record of incident.py.  Coordinates are embedded as
rationals; the parsed creation time as a PyDatetime. -/
structure Incident where
  id : String
  time : PyDatetime
  addr : String
  lat : ℚ
  lon : ℚ
  inc_type : String
  units : List String
deriving DecidableEq, Repr

/-- Model of Incident.init: parses the timestamp with strptime, which
raises ValueError on a format mismatch; otherwise the record is built
with an empty unit list. -/
def Incident.create (id time addr : String) (loc : ℚ × ℚ) (inc_type : String) :
    Except PyError Incident :=
  match strptime time with
  | none => .error .valueError
  | some t => .ok ⟨id, t, addr, loc.1, loc.2, inc_type, []⟩

/-- Model of Incident.add_unit: appends the unit and emits a vehicle
notification unless the unit is already present. -/
def Incident.add_unit (inc : Incident) (unit : String) : Incident × List Msg :=
  if unit ∈ inc.units then (inc, [])
  else ({ inc with units := inc.units ++ [unit] }, [.vehicle unit inc.addr])

/-- Model of Incident.update_type: overwrites the classification and
emits a change notification when it differs. -/
def Incident.update_type (inc : Incident) (new_type : String) : Incident × List Msg :=
  if inc.inc_type ≠ new_type then
    ({ inc with inc_type := new_type }, [.typeChanged inc.addr inc.inc_type new_type])
  else (inc, [])

/-- Degrees-to-radians conversion used inside get_dist_to. -/
noncomputable def rad (x : ℚ) : ℝ :=
  (x : ℝ) * Real.pi / 180

/-- The Haversine computation of get_dist_to on explicit origin and
point coordinates: half-angle sine squares, arcsine of the square root,
scaled by the fixed Earth radius 6371. -/
noncomputable def haversine (olat olon plat plon : ℚ) : ℝ :=
  2 * Real.arcsin (Real.sqrt
    (Real.sin ((rad plat - rad olat) / 2) ^ 2 +
      Real.cos (rad olat) * Real.cos (rad plat) *
        Real.sin ((rad plon - rad olon) / 2) ^ 2)) * 6371

/-- Model of Incident.get_dist_to: Haversine distance from the origin
to the incident coordinates. -/
noncomputable def Incident.get_dist_to (inc : Incident) (origin : ℚ × ℚ) : ℝ :=
  haversine origin.1 origin.2 inc.lat inc.lon

/-- The DIRECTIONALS table of incident.py. -/
def DIRECTIONALS : List String :=
  ["southwest", "northwest", "southeast", "northeast"]

/-- Model of Incident.get_direction_to: strict sign comparisons select
a quadrant index by shifting the east bit and or-ing the north bit. -/
def Incident.get_direction_to (inc : Incident) (origin : ℚ × ℚ) : String :=
  let idx := ((if inc.lon > origin.2 then 1 else 0) <<< 1) |||
    (if inc.lat > origin.1 then 1 else 0)
  DIRECTIONALS.getD idx ""

/-! ### Dict model

The id-keyed tracked map is embedded as an association list with
insertion-order semantics: lookup finds the first matching key,
assignment replaces in place when the key exists and appends when it
does not, deletion removes the entry.  A Python dict never holds
duplicate keys; the corresponding Nodup invariant appears as a
hypothesis of the reconciliation theorems. -/

/-- Dict lookup: first value stored under the key. -/
def dictGet {β : Type} : List (String × β) → String → Option β
  | [], _ => none
  | (k1, v) :: t, k => if k1 = k then some v else dictGet t k

/-- Dict assignment: replaces in place, or appends a new entry. -/
def dictSet {β : Type} : List (String × β) → String → β → List (String × β)
  | [], k, v => [(k, v)]
  | (k1, v1) :: t, k, v =>
    if k1 = k then (k, v) :: t else (k1, v1) :: dictSet t k v

/-- Dict deletion: removes the first entry stored under the key. -/
def dictDel {β : Type} : List (String × β) → String → List (String × β)
  | [], _ => []
  | (k1, v1) :: t, k => if k1 = k then t else (k1, v1) :: dictDel t k

/-- The key view of the dict, in insertion order. -/
def dictKeys {β : Type} (m : List (String × β)) : List String :=
  m.map Prod.fst

/-! ### Reconciliation engine (class RealTime of realtime.py) -/

/-- The state of a RealTime monitor: the observer origin, the geocoder
adapter presented as a resolved address-to-coordinates function, and
the tracked incident map. -/
structure RealTime where
  origin : ℚ × ℚ
  coder : String → ℚ × ℚ
  incidents : List (String × Incident)

/-- Model of RealTime.add_incident: geocodes the location, constructs
the Incident (which can raise ValueError on a malformed timestamp,
uncaught here), prints an opened message, and stores the entry.  The
distance and quadrant computed for the printed text do not affect
state. -/
def RealTime.add_incident (rt : RealTime) (row : IncidentRow) :
    Except PyError (RealTime × List Msg) :=
  match Incident.create row.id row.datetime row.loc (rt.coder row.loc) row.typ with
  | .error e => .error e
  | .ok inc =>
    .ok ({ rt with incidents := dictSet rt.incidents row.id inc }, [.opened row.id])

/-- The body of the unit loop of update_incident: one add_unit call,
threading the accumulated notifications. -/
def addUnitStep (p : Incident × List Msg) (u : String) : Incident × List Msg :=
  ((p.1.add_unit u).1, p.2 ++ (p.1.add_unit u).2)

/-- Model of RealTime.update_incident: looks the incident up (KeyError
when absent), applies add_unit to every token of the units text split
on the single space character, then applies update_type. -/
def RealTime.update_incident (rt : RealTime) (row : IncidentRow) :
    Except PyError (RealTime × List Msg) :=
  match dictGet rt.incidents row.id with
  | none => .error .keyError
  | some inc =>
    let p1 := (pySplit ' ' row.units).foldl addUnitStep (inc, [])
    let p2 := p1.1.update_type row.typ
    .ok ({ rt with incidents := dictSet rt.incidents row.id p2.1 }, p1.2 ++ p2.2)

/-- Model of RealTime.remove_incident: looks the incident up (KeyError
when absent), prints a resolved message, and deletes the entry. -/
def RealTime.remove_incident (rt : RealTime) (inc_id : String) :
    Except PyError (RealTime × List Msg) :=
  match dictGet rt.incidents inc_id with
  | none => .error .keyError
  | some _ =>
    .ok ({ rt with incidents := dictDel rt.incidents inc_id }, [.resolved inc_id])

/-- Step 1 of RealTime.update: the loop adding every row whose id is
not yet a key of the tracked map. -/
def RealTime.add_new_rows : RealTime → List IncidentRow → Except PyError (RealTime × List Msg)
  | rt, [] => .ok (rt, [])
  | rt, row :: rest =>
    if row.id ∈ dictKeys rt.incidents then rt.add_new_rows rest
    else
      match rt.add_incident row with
      | .error e => .error e
      | .ok (rt1, ms1) =>
        match rt1.add_new_rows rest with
        | .error e => .error e
        | .ok (rt2, ms2) => .ok (rt2, ms1 ++ ms2)

/-- Step 2 of RealTime.update: the loop applying update_incident to
the precomputed list of rows whose id is tracked. -/
def RealTime.update_rows : RealTime → List IncidentRow → Except PyError (RealTime × List Msg)
  | rt, [] => .ok (rt, [])
  | rt, row :: rest =>
    match rt.update_incident row with
    | .error e => .error e
    | .ok (rt1, ms1) =>
      match rt1.update_rows rest with
      | .error e => .error e
      | .ok (rt2, ms2) => .ok (rt2, ms1 ++ ms2)

/-- Step 3 of RealTime.update: the loop over a snapshot of the tracked
keys removing every key absent from the active id list. -/
def RealTime.remove_absent : RealTime → List String → List String → Except PyError (RealTime × List Msg)
  | rt, [], _ => .ok (rt, [])
  | rt, k :: rest, active =>
    if k ∈ active then rt.remove_absent rest active
    else
      match rt.remove_incident k with
      | .error e => .error e
      | .ok (rt1, ms1) =>
        match rt1.remove_absent rest active with
        | .error e => .error e
        | .ok (rt2, ms2) => .ok (rt2, ms1 ++ ms2)

/-- Model of RealTime.update on an already-fetched row snapshot: add
new ids, update the rows whose id is tracked after the additions,
remove the tracked ids absent from the snapshot. -/
def RealTime.update (rt : RealTime) (rows : List IncidentRow) :
    Except PyError (RealTime × List Msg) :=
  match rt.add_new_rows rows with
  | .error e => .error e
  | .ok (rt1, ms1) =>
    match rt1.update_rows (rows.filter (fun r => decide (r.id ∈ dictKeys rt1.incidents))) with
    | .error e => .error e
    | .ok (rt2, ms2) =>
      match rt2.remove_absent (dictKeys rt2.incidents) (rows.map (fun r => r.id)) with
      | .error e => .error e
      | .ok (rt3, ms3) => .ok (rt3, ms1 ++ ms2 ++ ms3)

/-- An element of the list built by RealTime.get_two_day_rows.  The
Python list is heterogeneous: each element is either a single row or,
because the code appends the whole yesterday list as one element, a
nested list of rows. -/
inductive RowItem
  | row (r : IncidentRow)
  | rowList (rs : List IncidentRow)
deriving DecidableEq, Repr

/-- Model of RealTime.get_two_day_rows on already-parsed feed windows:
starts from the today rows and, when the yesterday window is
non-empty, appends the yesterday row list as a single element. -/
def RealTime.get_two_day_rows (today_rows yesterday_rows : List IncidentRow) : List RowItem :=
  let rows := today_rows.map RowItem.row
  if yesterday_rows.length > 0 then rows ++ [RowItem.rowList yesterday_rows] else rows

/-! ### Reference-level model of list copies

Python lists are heap objects; the copy contract of the accessors
get_units and get_rows concerns object identity.  A minimal store of
list cells addressed by natural numbers models this: allocation
appends a fresh cell, mutation overwrites a cell in place. -/

/-- A store of list cells; a reference is an index into the store. -/
structure PyHeap (α : Type) where
  cells : List (List α)

/-- Allocates a fresh cell holding the given list, returning the new
store and the fresh reference. -/
def heapAlloc {α : Type} (h : PyHeap α) (v : List α) : PyHeap α × Nat :=
  (⟨h.cells ++ [v]⟩, h.cells.length)

/-- Reads the list held by a reference. -/
def heapRead {α : Type} (h : PyHeap α) (r : Nat) : List α :=
  h.cells.getD r []

/-- Overwrites the list held by a reference (an in-place mutation of
the Python list object). -/
def heapWrite {α : Type} (h : PyHeap α) (r : Nat) (v : List α) : PyHeap α :=
  ⟨h.cells.set r v⟩

/-- Model of the list.copy() call: allocates a fresh cell holding the
same elements in the same order. -/
def listCopy {α : Type} (h : PyHeap α) (r : Nat) : PyHeap α × Nat :=
  heapAlloc h (heapRead h r)

/-- Reference-level model of Incident.get_units: returns a copy of the
internal unit list object. -/
def Incident.get_units_ref (h : PyHeap String) (unitsRef : Nat) : PyHeap String × Nat :=
  listCopy h unitsRef

/-- Reference-level model of RealTimeParser.get_rows: returns a copy
of the internal row list object. -/
def get_rows_ref (h : PyHeap IncidentRow) (rowsRef : Nat) : PyHeap IncidentRow × Nat :=
  listCopy h rowsRef

/-! ### Specification predicates and concrete fixtures -/

/-- The copy contract of an accessor f: the returned reference is a
fresh object, it holds the same elements in the same order, and
overwriting it leaves the original reference unchanged. -/
def copySpec {α : Type} (h : PyHeap α) (r : Nat) (f : PyHeap α → Nat → PyHeap α × Nat) : Prop :=
  (f h r).2 ≠ r ∧
  heapRead (f h r).1 (f h r).2 = heapRead h r ∧
  ∀ v, heapRead (heapWrite (f h r).1 (f h r).2 v) r = heapRead h r

/-- The reconciliation contract of one update call on a snapshot: the
call succeeds, the tracked key set afterwards is exactly the id set of
the snapshot, and exactly one resolved event is emitted per removed id
(and none for any other id). -/
def reconcileSpec (rt : RealTime) (rows : List IncidentRow) : Prop :=
  ∃ rt1 ms, rt.update rows = .ok (rt1, ms) ∧
    (∀ k, k ∈ dictKeys rt1.incidents ↔ k ∈ rows.map (fun r => r.id)) ∧
    (∀ k, ms.count (Msg.resolved k) =
      if k ∈ dictKeys rt.incidents ∧ k ∉ rows.map (fun r => r.id) then 1 else 0)

/-- Event stream of the single-field active row used as the spec
example for malformed rows. -/
def singleFieldDoc : List HtmlEvent :=
  [.startTag "tr" [("id", some "row_1")], .startTag "td" [("class", some "active")],
    .data "only-one-field", .endTag "td", .endTag "tr"]

/-- A document that ends inside an unclosed row, leaving a pending
cache and a non-INVALID expected column behind. -/
def leakDoc : List HtmlEvent :=
  [.startTag "tr" [("id", some "row_1")], .startTag "td" [], .data "x"]

/-- A complete five-field row document. -/
def fiveFieldDoc : List HtmlEvent :=
  [.startTag "tr" [("id", some "row_2")], .data "a", .data "b", .data "c", .data "d",
    .data "e", .endTag "tr"]

/-- A row document with one trailing decorative text after the sixth
field. -/
def sevenFieldDoc : List HtmlEvent :=
  [.startTag "tr" [("id", some "row_1")], .data "t", .data "i", .data "l", .data "u",
    .data "lo", .data "ty", .data "extra", .endTag "tr"]

/-- A raw row with an unparseable timestamp. -/
def rowBadTs : IncidentRow :=
  ⟨"garbage", "A", .int 0, "", "First Ave", "Fire"⟩

/-- A raw row with a well-formed timestamp. -/
def rowGoodTs : IncidentRow :=
  ⟨"10/12/2025 08:30:00 AM", "B", .int 0, "E1", "Second Ave", "Aid"⟩

/-- A monitor with no tracked incidents. -/
def rtEmpty : RealTime :=
  ⟨(0, 0), fun _ => (0, 0), []⟩

/-- A tracked incident fixture. -/
def incTracked : Incident :=
  ⟨"A", ⟨2025, 1, 1, 0, 0, 0⟩, "First Ave", 0, 0, "Fire", []⟩

/-- A monitor tracking the single incident A. -/
def rtWithA : RealTime :=
  ⟨(0, 0), fun _ => (0, 0), [("A", incTracked)]⟩

/-- A raw row for the tracked id A whose units text is empty. -/
def rowEmptyUnits : IncidentRow :=
  ⟨"x", "A", .int 0, "", "First Ave", "Fire"⟩

/-- A row of the today feed window. -/
def todayRow : IncidentRow :=
  ⟨"t", "T1", .int 0, "E1", "loc1", "Fire"⟩

/-- A row of the yesterday feed window. -/
def yesterdayRow : IncidentRow :=
  ⟨"y", "Y1", .int 0, "E2", "loc2", "Aid"⟩

/-! ## Theorems -/

/-! ### Helper lemmas about the dict model -/

theorem dictKeys_nil {β : Type} : dictKeys ([] : List (String × β)) = [] := rfl

theorem dictKeys_cons {β : Type} (k : String) (v : β) (t : List (String × β)) :
    dictKeys ((k, v) :: t) = k :: dictKeys t := rfl

theorem dictKeys_dictSet {β : Type} (m : List (String × β)) (k : String) (v : β) :
    dictKeys (dictSet m k v) =
      if k ∈ dictKeys m then dictKeys m else dictKeys m ++ [k] := by
  induction m with
  | nil => simp [dictSet, dictKeys]
  | cons p t ih =>
    obtain ⟨k1, v1⟩ := p
    by_cases hk : k1 = k
    · subst hk
      simp [dictSet, dictKeys_cons]
    · have hne : k ≠ k1 := fun h => hk h.symm
      rw [dictKeys_cons]
      simp only [dictSet, if_neg hk, dictKeys_cons, ih, List.mem_cons]
      by_cases hm : k ∈ dictKeys t
      · simp [hm]
      · simp [hm, hne]

theorem dictGet_some_of_mem {β : Type} (m : List (String × β)) (k : String)
    (h : k ∈ dictKeys m) : ∃ v, dictGet m k = some v := by
  induction m with
  | nil => simp [dictKeys] at h
  | cons p t ih =>
    obtain ⟨k1, v1⟩ := p
    by_cases hk : k1 = k
    · exact ⟨v1, by simp [dictGet, hk]⟩
    · have hm : k ∈ dictKeys t := by
        rw [dictKeys_cons] at h
        rcases List.mem_cons.mp h with h1 | h1
        · exact absurd h1.symm hk
        · exact h1
      obtain ⟨v, hv⟩ := ih hm
      exact ⟨v, by simp [dictGet, hk, hv]⟩

theorem dictGet_dictSet_self {β : Type} (m : List (String × β)) (k : String) (v : β) :
    dictGet (dictSet m k v) k = some v := by
  induction m with
  | nil => simp [dictSet, dictGet]
  | cons p t ih =>
    obtain ⟨k1, v1⟩ := p
    by_cases hk : k1 = k
    · simp [dictSet, dictGet, hk]
    · simp [dictSet, dictGet, hk, ih]

theorem dictKeys_dictDel {β : Type} (m : List (String × β)) (k : String)
    (hnd : (dictKeys m).Nodup) : dictKeys (dictDel m k) = (dictKeys m).erase k := by
  induction m with
  | nil => simp [dictDel, dictKeys]
  | cons p t ih =>
    obtain ⟨k1, v1⟩ := p
    rw [dictKeys_cons] at hnd
    by_cases hk : k1 = k
    · subst hk
      simp [dictDel, dictKeys_cons, List.erase_cons_head]
    · rw [dictKeys_cons, List.erase_cons_tail (by simpa using hk)]
      simp only [dictDel, if_neg hk, dictKeys_cons]
      rw [ih hnd.of_cons]

theorem nodup_dictKeys_dictSet {β : Type} (m : List (String × β)) (k : String) (v : β)
    (hnd : (dictKeys m).Nodup) : (dictKeys (dictSet m k v)).Nodup := by
  rw [dictKeys_dictSet]
  by_cases hm : k ∈ dictKeys m
  · simpa [hm] using hnd
  · simp [hm, List.nodup_append, hnd]

/-! ### Helper lemmas about incident mutation -/

theorem add_unit_units_of_not_mem (inc : Incident) (u : String) (h : u ∉ inc.units) :
    (inc.add_unit u).1.units = inc.units ++ [u] := by
  unfold Incident.add_unit
  rw [if_neg h]

theorem update_type_units (inc : Incident) (t : String) :
    (inc.update_type t).1.units = inc.units := by
  unfold Incident.update_type
  split <;> rfl

/-! ### Claim theorems -/

/-- C7 (code_bug): evaluated at a cycle with one row in each feed
window, get_two_day_rows returns the today row followed by the entire
yesterday window as one nested list element, not a flat merged
sequence of rows. -/
theorem get_two_day_rows_nests_yesterday :
    RealTime.get_two_day_rows [todayRow] [yesterdayRow] =
      [RowItem.row todayRow, RowItem.rowList [yesterdayRow]] := by
  rfl

/-- C8 (confirmed): get_direction_to returns the DIRECTIONALS entry at
index (is_east times 2) plus (is_north times 1) with the strict
greater-than comparisons of the claim, and an incident at exactly the
origin coordinates resolves to southwest. -/
theorem get_direction_to_quadrant_table :
    ∀ (inc : Incident) (olat olon : ℚ),
      inc.get_direction_to (olat, olon) =
        DIRECTIONALS.getD
          ((if inc.lon > olon then 2 else 0) + (if inc.lat > olat then 1 else 0)) "" ∧
      inc.get_direction_to (inc.lat, inc.lon) = "southwest" := by
  intro inc olat olon
  constructor
  · by_cases he : inc.lon > olon <;> by_cases hn : inc.lat > olat <;>
      simp [Incident.get_direction_to, he, hn, DIRECTIONALS]
  · simp [Incident.get_direction_to, lt_irrefl, DIRECTIONALS]

/-- C9 (confirmed): the Haversine distance of get_dist_to is symmetric
under swapping the origin with the incident coordinates, and is zero
when the origin equals the incident coordinates. -/
theorem get_dist_to_symm_and_zero :
    ∀ (i1 i2 : Incident),
      i1.get_dist_to (i2.lat, i2.lon) = i2.get_dist_to (i1.lat, i1.lon) ∧
      i1.get_dist_to (i1.lat, i1.lon) = 0 := by
  intro i1 i2
  have hs : ∀ x y : ℝ, Real.sin ((x - y) / 2) ^ 2 = Real.sin ((y - x) / 2) ^ 2 := by
    intro x y
    rw [show (x - y) / 2 = -((y - x) / 2) by ring, Real.sin_neg]
    ring
  constructor
  · show haversine i2.lat i2.lon i1.lat i1.lon = haversine i1.lat i1.lon i2.lat i2.lon
    unfold haversine
    rw [hs (rad i1.lat) (rad i2.lat), hs (rad i1.lon) (rad i2.lon),
      mul_comm (Real.cos (rad i2.lat)) (Real.cos (rad i1.lat))]
  · show haversine i1.lat i1.lon i1.lat i1.lon = 0
    unfold haversine
    simp

/-- C10 (confirmed): the lists returned by get_units and get_rows are
fresh copies of the internal collections with the same elements in the
same order, so overwriting a returned list leaves the internal state
unchanged. -/
theorem accessor_copies_preserve_internal :
    ∀ (hu : PyHeap String) (ru : Nat) (hr : PyHeap IncidentRow) (rr : Nat),
      ru < hu.cells.length → rr < hr.cells.length →
      copySpec hu ru Incident.get_units_ref ∧ copySpec hr rr get_rows_ref := by
  have key : ∀ (α : Type) (h : PyHeap α) (r : Nat), r < h.cells.length →
      copySpec h r listCopy := by
    intro α h r hlt
    refine ⟨Nat.ne_of_gt hlt, ?_, ?_⟩
    · show heapRead ⟨h.cells ++ [heapRead h r]⟩ h.cells.length = heapRead h r
      unfold heapRead
      rw [List.getD_eq_getD_get?, List.get?_concat_length]
      rfl
    · intro v
      show heapRead ⟨(h.cells ++ [heapRead h r]).set h.cells.length v⟩ r = heapRead h r
      unfold heapRead
      rw [List.getD_eq_getD_get?, List.get?_set_ne _ _ (Nat.ne_of_gt hlt),
        List.get?_append hlt, List.getD_eq_getD_get?]
  intro hu ru hr rr h1 h2
  exact ⟨key String hu ru h1, key IncidentRow hr rr h2⟩

/-- C10 witness: the copy contract evaluated at concrete one-cell
stores. -/
theorem accessor_copies_preserve_internal_witness :
    (0 : Nat) < (PyHeap.mk [["E1", "E2"]]).cells.length ∧
    (0 : Nat) < (PyHeap.mk [[todayRow]]).cells.length ∧
    (copySpec ⟨[["E1", "E2"]]⟩ 0 Incident.get_units_ref ∧
      copySpec ⟨[[todayRow]]⟩ 0 get_rows_ref) :=
  ⟨by decide, by decide,
    accessor_copies_preserve_internal ⟨[["E1", "E2"]]⟩ 0 ⟨[[todayRow]]⟩ 0
      (by decide) (by decide)⟩

/-- C2 counterexample: parsing the single-field active row raises
ValueError from the five-name unpacking instead of silently dropping
the row and continuing. -/
theorem short_row_feed_raises :
    feed singleFieldDoc mkParser = .error .valueError := by
  rfl

/-- C2 (corrected): a row context closed with fewer than five captured
fields raises ValueError (aborting the parse with no row emitted for
it), while a row context closed with exactly five captured fields is
emitted with the level defaulted to the integer 0. -/
theorem short_row_unpack_error :
    ∀ (st : ParserState), st.next_td ≠ .INVALID →
      (st.cache.length < 5 → handle_endtag "tr" st = .error .valueError) ∧
      (∀ a b c d e, st.cache = [a, b, c, d, e] →
        handle_endtag "tr" st = .ok ⟨.INVALID, st.rows ++ [⟨a, b, .int 0, c, d, e⟩], []⟩) := by
  intro st h
  constructor
  · intro hlen
    rcases hc : st.cache with _ | ⟨a, _ | ⟨b, _ | ⟨c, _ | ⟨d, _ | ⟨e, rest⟩⟩⟩⟩⟩ <;>
      first
        | (exfalso
           rw [hc] at hlen
           simp only [List.length_cons] at hlen
           omega)
        | simp [handle_endtag, h, hc]
  · intro a b c d e hc
    simp [handle_endtag, h, hc]

/-- C2 witness: the two unpacking outcomes at concrete parser
states. -/
theorem short_row_unpack_error_witness :
    handle_endtag "tr" ⟨.ID, [], ["p"]⟩ = .error .valueError ∧
    handle_endtag "tr" ⟨.TYPE, [], ["a", "b", "c", "d", "e"]⟩ =
      .ok ⟨.INVALID, [⟨"a", "b", .int 0, "c", "d", "e"⟩], []⟩ :=
  ⟨(short_row_unpack_error ⟨.ID, [], ["p"]⟩ (by decide)).1 (by decide),
    (short_row_unpack_error ⟨.TYPE, [], ["a", "b", "c", "d", "e"]⟩ (by decide)).2
      "a" "b" "c" "d" "e" rfl⟩

/-- C3 counterexample: reconciling a snapshot holding a
malformed-timestamp row followed by a well-formed row aborts the whole
update pass with ValueError; the well-formed row is not processed. -/
theorem malformed_timestamp_aborts_update :
    rtEmpty.update [rowBadTs, rowGoodTs] = .error .valueError := by
  rfl

/-- C3 (corrected): Incident creation succeeds exactly when the
timestamp text matches the fixed strptime format; but during
reconciliation a new row with an unparseable timestamp raises out of
the add step and aborts the entire update call instead of being
treated as absent. -/
theorem create_fails_iff_and_update_aborts :
    (∀ (id time addr : String) (loc : ℚ × ℚ) (typ : String),
      (∃ inc, Incident.create id time addr loc typ = .ok inc) ↔
        (strptime time).isSome = true) ∧
    (∀ (rt : RealTime) (row : IncidentRow) (rest : List IncidentRow),
      row.id ∉ dictKeys rt.incidents → strptime row.datetime = none →
      rt.update (row :: rest) = .error .valueError) := by
  constructor
  · intro id time addr loc typ
    cases hst : strptime time <;> simp [Incident.create, hst]
  · intro rt row rest hmem hst
    simp [RealTime.update, RealTime.add_new_rows, hmem, RealTime.add_incident,
      Incident.create, hst]

/-- C3 witness: a well-formed timestamp creates an Incident, and a
malformed-timestamp row aborts a concrete update call. -/
theorem create_fails_iff_and_update_aborts_witness :
    (∃ inc, Incident.create "A" "12/25/2022 01:15:30 PM" "x" (0, 0) "Fire" = .ok inc) ∧
    rtEmpty.update [rowBadTs] = .error .valueError :=
  ⟨(create_fails_iff_and_update_aborts.1 "A" "12/25/2022 01:15:30 PM" "x" (0, 0) "Fire").mpr
      (by decide),
    create_fails_iff_and_update_aborts.2 rtEmpty rowBadTs [] (by decide) (by decide)⟩

/-- C4 counterexample: feeding the unclosed-row document and then the
five-field document through the same parser yields a different result
from feeding the five-field document to a fresh parser, because the
pending cache leaks into the first row of the second document. -/
theorem feed_leaks_cache_across_documents :
    (((feed leakDoc mkParser).bind (fun st => feed fiveFieldDoc st)).toOption.map
        ParserState.rows) ≠
      ((feed fiveFieldDoc mkParser).toOption.map ParserState.rows) := by
  decide

/-- C4 (corrected): feed clears only the previously emitted rows; the
pending per-row cache and the expected-column state persist, so the
parser restarts cleanly exactly when the prior document ended outside
a row context. -/
theorem feed_clears_only_rows :
    ∀ (st : ParserState) (doc : List HtmlEvent),
      feed doc st = processEvents doc ⟨st.next_td, [], st.cache⟩ ∧
      (st.cache = [] → st.next_td = .INVALID → feed doc st = feed doc mkParser) := by
  intro st doc
  constructor
  · rfl
  · intro h1 h2
    obtain ⟨td, rows, cache⟩ := st
    simp only at h1 h2
    subst h1
    subst h2
    rfl

/-- C4 witness: clearing behaviour evaluated at a parser state with
one emitted row and clean row context. -/
theorem feed_clears_only_rows_witness :
    feed [] ⟨.INVALID, [todayRow], []⟩ = processEvents [] ⟨.INVALID, [], []⟩ ∧
    feed [] ⟨.INVALID, [todayRow], []⟩ = feed [] mkParser :=
  ⟨(feed_clears_only_rows ⟨.INVALID, [todayRow], []⟩ []).1,
    (feed_clears_only_rows ⟨.INVALID, [todayRow], []⟩ []).2 rfl rfl⟩

/-- C5 counterexample: a row with trailing decorative text after its
sixth field does not finalize into a six-field RawRow; the seventh
cached field makes the six-name unpacking raise ValueError. -/
theorem trailing_text_breaks_row :
    feed sevenFieldDoc mkParser = .error .valueError := by
  rfl

/-- C5 (corrected): at the terminal TYPE column the expected-column
state indeed never advances, but extra non-blank text is appended to
the cache rather than ignored or overwritten, so a row whose cache
holds seven or more fields raises ValueError at the closing tr. -/
theorem type_column_retains_and_appends :
    (∀ (st : ParserState) (d : String), st.next_td = .TYPE → isBlank d = false →
      handle_data d st = ⟨.TYPE, st.rows, st.cache ++ [d]⟩) ∧
    (∀ (st : ParserState), st.next_td ≠ .INVALID → 7 ≤ st.cache.length →
      handle_endtag "tr" st = .error .valueError) := by
  constructor
  · intro st d h hb
    simp [handle_data, h, hb]
  · intro st h h7
    rcases hc : st.cache with _ | ⟨a, _ | ⟨b, _ | ⟨c, _ | ⟨d, _ | ⟨e, _ | ⟨f, _ | ⟨g, rest⟩⟩⟩⟩⟩⟩⟩ <;>
      first
        | (exfalso
           rw [hc] at h7
           simp only [List.length_cons, List.length_nil] at h7
           omega)
        | (unfold handle_endtag
           rw [if_pos ⟨rfl, h⟩, hc]
           rw [if_neg (by simp only [List.length_cons]; omega)])

/-- C5 witness: the append-at-TYPE step and the failing finalization
at concrete parser states. -/
theorem type_column_retains_and_appends_witness :
    handle_data "extra" ⟨.TYPE, [], ["t", "i", "l", "u", "lo", "ty"]⟩ =
      ⟨.TYPE, [], ["t", "i", "l", "u", "lo", "ty", "extra"]⟩ ∧
    handle_endtag "tr" ⟨.TYPE, [], ["t", "i", "l", "u", "lo", "ty", "extra"]⟩ =
      .error .valueError :=
  ⟨type_column_retains_and_appends.1 ⟨.TYPE, [], ["t", "i", "l", "u", "lo", "ty"]⟩
      "extra" rfl rfl,
    type_column_retains_and_appends.2 ⟨.TYPE, [], ["t", "i", "l", "u", "lo", "ty", "extra"]⟩
      (by decide) (by decide)⟩

/-- C6 counterexample: reconciling a snapshot whose tracked row has an
empty units text stores the empty string as a unit of the incident. -/
theorem empty_units_token_added :
    Except.map (fun p => (dictGet p.1.incidents "A").map Incident.units)
      (rtWithA.update [rowEmptyUnits]) = .ok (some [""]) := by
  rfl

/-- C6 (corrected): update_incident splits the units text on the
single space character and applies add_unit to every resulting token
including empty ones, so an empty units text appends the empty string
to the unit list of the stored incident when not already present. -/
theorem split_space_adds_empty_token :
    ∀ (rt : RealTime) (row : IncidentRow) (inc : Incident),
      dictGet rt.incidents row.id = some inc → row.units = "" → "" ∉ inc.units →
      ∃ rt1 ms, rt.update_incident row = .ok (rt1, ms) ∧
        ∃ inc1, dictGet rt1.incidents row.id = some inc1 ∧
          inc1.units = inc.units ++ [""] := by
  intro rt row inc hget hu hno
  obtain ⟨ms, heq⟩ : ∃ ms, rt.update_incident row =
      .ok (⟨rt.origin, rt.coder,
        dictSet rt.incidents row.id (((inc.add_unit "").1.update_type row.typ).1)⟩, ms) := by
    unfold RealTime.update_incident
    rw [hget, hu]
    exact ⟨_, rfl⟩
  refine ⟨_, ms, heq, _, dictGet_dictSet_self _ _ _, ?_⟩
  rw [update_type_units, add_unit_units_of_not_mem inc "" hno]

/-- C6 witness: the empty token addition at the concrete tracked
monitor. -/
theorem split_space_adds_empty_token_witness :
    ∃ rt1 ms, rtWithA.update_incident rowEmptyUnits = .ok (rt1, ms) ∧
      ∃ inc1, dictGet rt1.incidents rowEmptyUnits.id = some inc1 ∧
        inc1.units = incTracked.units ++ [""] :=
  split_space_adds_empty_token rtWithA rowEmptyUnits incTracked rfl rfl (by decide)

/-! ### Lemmas for the reconciliation theorem -/

theorem dictKeys_dictSet_mem {β : Type} (m : List (String × β)) (k : String) (v : β)
    (h : k ∈ dictKeys m) : dictKeys (dictSet m k v) = dictKeys m := by
  rw [dictKeys_dictSet, if_pos h]

theorem add_unit_no_resolved (inc : Incident) (u k : String) :
    Msg.resolved k ∉ (inc.add_unit u).2 := by
  unfold Incident.add_unit
  split <;> simp

theorem update_type_no_resolved (inc : Incident) (t k : String) :
    Msg.resolved k ∉ (inc.update_type t).2 := by
  unfold Incident.update_type
  split <;> simp

theorem foldl_add_unit_no_resolved (toks : List String) (k : String) :
    ∀ (p : Incident × List Msg), Msg.resolved k ∉ p.2 →
      Msg.resolved k ∉ (toks.foldl addUnitStep p).2 := by
  induction toks with
  | nil => intro p hp; exact hp
  | cons t ts ih =>
    intro p hp
    simp only [List.foldl_cons]
    apply ih
    intro hk
    rcases List.mem_append.mp hk with hk | hk
    · exact hp hk
    · exact add_unit_no_resolved _ _ _ hk

theorem add_incident_ok (rt : RealTime) (row : IncidentRow)
    (h : (strptime row.datetime).isSome = true) :
    ∃ inc, rt.add_incident row =
      .ok (⟨rt.origin, rt.coder, dictSet rt.incidents row.id inc⟩, [.opened row.id]) := by
  obtain ⟨t, ht⟩ := Option.isSome_iff_exists.mp h
  refine ⟨⟨row.id, t, row.loc, (rt.coder row.loc).1, (rt.coder row.loc).2, row.typ, []⟩, ?_⟩
  unfold RealTime.add_incident Incident.create
  rw [ht]

theorem add_new_rows_spec : ∀ (rows : List IncidentRow) (rt : RealTime),
    (∀ r ∈ rows, (strptime r.datetime).isSome = true) →
    ∃ rt1 ms, rt.add_new_rows rows = .ok (rt1, ms) ∧
      (∀ k, k ∈ dictKeys rt1.incidents ↔
        k ∈ dictKeys rt.incidents ∨ k ∈ rows.map (fun r => r.id)) ∧
      ((dictKeys rt.incidents).Nodup → (dictKeys rt1.incidents).Nodup) ∧
      (∀ k, Msg.resolved k ∉ ms) := by
  intro rows
  induction rows with
  | nil =>
    intro rt _
    exact ⟨rt, [], rfl, fun k => by simp, fun h => h, fun k => by simp⟩
  | cons row rest ih =>
    intro rt h
    by_cases hmem : row.id ∈ dictKeys rt.incidents
    · obtain ⟨rt1, ms, heq, hkeys, hnd, hres⟩ :=
        ih rt (fun r hr => h r (List.mem_cons_of_mem _ hr))
      refine ⟨rt1, ms, ?_, ?_, hnd, hres⟩
      · simp only [RealTime.add_new_rows, if_pos hmem]
        exact heq
      · intro k
        rw [hkeys k]
        simp only [List.map_cons, List.mem_cons]
        constructor
        · rintro (hk | hk)
          · exact Or.inl hk
          · exact Or.inr (Or.inr hk)
        · rintro (hk | hk | hk)
          · exact Or.inl hk
          · exact Or.inl (hk ▸ hmem)
          · exact Or.inr hk
    · obtain ⟨inc, heq1⟩ := add_incident_ok rt row (h row (List.mem_cons_self _ _))
      have hkeys1 : dictKeys (⟨rt.origin, rt.coder,
          dictSet rt.incidents row.id inc⟩ : RealTime).incidents =
          dictKeys rt.incidents ++ [row.id] := by
        show dictKeys (dictSet rt.incidents row.id inc) = _
        rw [dictKeys_dictSet, if_neg hmem]
      obtain ⟨rt2, ms2, heq2, hkeys2, hnd2, hres2⟩ :=
        ih ⟨rt.origin, rt.coder, dictSet rt.incidents row.id inc⟩
          (fun r hr => h r (List.mem_cons_of_mem _ hr))
      refine ⟨rt2, [Msg.opened row.id] ++ ms2, ?_, ?_, ?_, ?_⟩
      · simp only [RealTime.add_new_rows, if_neg hmem, heq1, heq2]
      · intro k
        rw [hkeys2 k, hkeys1]
        simp only [List.mem_append, List.mem_singleton, List.map_cons, List.mem_cons]
        tauto
      · intro hnd
        apply hnd2
        rw [hkeys1]
        simp [List.nodup_append, hnd, hmem]
      · intro k hk
        rcases List.mem_append.mp hk with hk | hk
        · simp at hk
        · exact hres2 k hk

theorem update_incident_ok (rt : RealTime) (row : IncidentRow)
    (h : row.id ∈ dictKeys rt.incidents) :
    ∃ rt1 ms, rt.update_incident row = .ok (rt1, ms) ∧
      dictKeys rt1.incidents = dictKeys rt.incidents ∧
      (∀ k, Msg.resolved k ∉ ms) := by
  obtain ⟨inc, hget⟩ := dictGet_some_of_mem _ _ h
  unfold RealTime.update_incident
  rw [hget]
  refine ⟨_, _, rfl, ?_, ?_⟩
  · exact dictKeys_dictSet_mem _ _ _ h
  · intro k hk
    rcases List.mem_append.mp hk with hk | hk
    · exact foldl_add_unit_no_resolved _ k (inc, []) (by simp) hk
    · exact update_type_no_resolved _ _ _ hk

theorem update_rows_spec : ∀ (rows : List IncidentRow) (rt : RealTime),
    (∀ r ∈ rows, r.id ∈ dictKeys rt.incidents) →
    ∃ rt1 ms, rt.update_rows rows = .ok (rt1, ms) ∧
      dictKeys rt1.incidents = dictKeys rt.incidents ∧
      (∀ k, Msg.resolved k ∉ ms) := by
  intro rows
  induction rows with
  | nil =>
    intro rt _
    exact ⟨rt, [], rfl, rfl, fun k => by simp⟩
  | cons row rest ih =>
    intro rt h
    obtain ⟨rt1, ms1, heq1, hkeys1, hres1⟩ :=
      update_incident_ok rt row (h row (List.mem_cons_self _ _))
    obtain ⟨rt2, ms2, heq2, hkeys2, hres2⟩ := ih rt1 (fun r hr => by
      rw [hkeys1]
      exact h r (List.mem_cons_of_mem _ hr))
    refine ⟨rt2, ms1 ++ ms2, ?_, ?_, ?_⟩
    · simp only [RealTime.update_rows, heq1, heq2]
    · rw [hkeys2, hkeys1]
    · intro k hk
      rcases List.mem_append.mp hk with hk | hk
      · exact hres1 k hk
      · exact hres2 k hk

theorem remove_incident_ok (rt : RealTime) (k : String)
    (h : k ∈ dictKeys rt.incidents) :
    rt.remove_incident k = .ok (⟨rt.origin, rt.coder, dictDel rt.incidents k⟩, [.resolved k]) := by
  obtain ⟨v, hv⟩ := dictGet_some_of_mem _ _ h
  unfold RealTime.remove_incident
  rw [hv]

theorem remove_absent_spec : ∀ (snap : List String) (rt : RealTime) (active : List String),
    (∀ x ∈ snap, x ∈ dictKeys rt.incidents) → snap.Nodup → (dictKeys rt.incidents).Nodup →
    ∃ rt1 ms, rt.remove_absent snap active = .ok (rt1, ms) ∧
      (∀ x, x ∈ dictKeys rt1.incidents ↔
        x ∈ dictKeys rt.incidents ∧ ¬(x ∈ snap ∧ x ∉ active)) ∧
      ms = (snap.filter (fun x => decide (x ∉ active))).map Msg.resolved := by
  intro snap
  induction snap with
  | nil =>
    intro rt active _ _ _
    exact ⟨rt, [], rfl, fun x => by simp, by simp⟩
  | cons k rest ih =>
    intro rt active hsub hnds hnd
    by_cases hact : k ∈ active
    · obtain ⟨rt1, ms, heq, hkeys, hms⟩ :=
        ih rt active (fun x hx => hsub x (List.mem_cons_of_mem _ hx)) hnds.of_cons hnd
      refine ⟨rt1, ms, ?_, ?_, ?_⟩
      · simp only [RealTime.remove_absent, if_pos hact]
        exact heq
      · intro x
        rw [hkeys x]
        constructor
        · rintro ⟨h1, h2⟩
          refine ⟨h1, ?_⟩
          rintro ⟨hx1, hx2⟩
          rcases List.mem_cons.mp hx1 with rfl | hx1
          · exact hx2 hact
          · exact h2 ⟨hx1, hx2⟩
        · rintro ⟨h1, h2⟩
          refine ⟨h1, ?_⟩
          rintro ⟨hx1, hx2⟩
          exact h2 ⟨List.mem_cons_of_mem _ hx1, hx2⟩
      · rw [hms]
        congr 1
        simp [List.filter_cons, hact]
    · have hkmem : k ∈ dictKeys rt.incidents := hsub k (List.mem_cons_self _ _)
      have hdel := remove_incident_ok rt k hkmem
      have hkeysdel : dictKeys (⟨rt.origin, rt.coder,
          dictDel rt.incidents k⟩ : RealTime).incidents = (dictKeys rt.incidents).erase k := by
        show dictKeys (dictDel rt.incidents k) = _
        exact dictKeys_dictDel _ _ hnd
      have hsub1 : ∀ x ∈ rest, x ∈ dictKeys (⟨rt.origin, rt.coder,
          dictDel rt.incidents k⟩ : RealTime).incidents := by
        intro x hx
        rw [hkeysdel, hnd.mem_erase_iff]
        have hxk : x ≠ k := by
          rintro rfl
          exact (List.nodup_cons.mp hnds).1 hx
        exact ⟨hxk, hsub x (List.mem_cons_of_mem _ hx)⟩
      have hnd1 : (dictKeys (⟨rt.origin, rt.coder,
          dictDel rt.incidents k⟩ : RealTime).incidents).Nodup := by
        rw [hkeysdel]
        exact hnd.erase k
      obtain ⟨rt2, ms2, heq2, hkeys2, hms2⟩ := ih _ active hsub1 hnds.of_cons hnd1
      refine ⟨rt2, [Msg.resolved k] ++ ms2, ?_, ?_, ?_⟩
      · simp only [RealTime.remove_absent, if_neg hact, hdel, heq2]
      · intro x
        rw [hkeys2 x, hkeysdel, hnd.mem_erase_iff]
        constructor
        · rintro ⟨⟨hxk, hx⟩, h2⟩
          refine ⟨hx, ?_⟩
          rintro ⟨h3, h4⟩
          rcases List.mem_cons.mp h3 with rfl | h3
          · exact hxk rfl
          · exact h2 ⟨h3, h4⟩
        · rintro ⟨h1, h2⟩
          have hxk : x ≠ k := by
            rintro rfl
            exact h2 ⟨List.mem_cons_self _ _, hact⟩
          exact ⟨⟨hxk, h1⟩, fun h3 => h2 ⟨List.mem_cons_of_mem _ h3.1, h3.2⟩⟩
      · rw [hms2]
        simp [List.filter_cons, hact]

/-- C1 (confirmed): on any snapshot of well-formed raw rows, one
update call succeeds, leaves the tracked key set exactly equal to the
id set of the snapshot, and emits exactly one resolved event per
previously tracked id absent from the snapshot (and none for any other
id). -/
theorem reconcile_keys_and_resolved :
    ∀ (rt : RealTime) (rows : List IncidentRow),
      (dictKeys rt.incidents).Nodup →
      (∀ r ∈ rows, (strptime r.datetime).isSome = true) →
      reconcileSpec rt rows := by
  intro rt rows hnd hts
  obtain ⟨rt1, ms1, heq1, hkeys1, hnd1f, hres1⟩ := add_new_rows_spec rows rt hts
  have hnd1 := hnd1f hnd
  have hsub2 : ∀ r ∈ rows.filter (fun r => decide (r.id ∈ dictKeys rt1.incidents)),
      r.id ∈ dictKeys rt1.incidents := by
    intro r hr
    exact of_decide_eq_true (List.mem_filter.mp hr).2
  obtain ⟨rt2, ms2, heq2, hkeys2, hres2⟩ := update_rows_spec _ rt1 hsub2
  have hnd2 : (dictKeys rt2.incidents).Nodup := by
    rw [hkeys2]
    exact hnd1
  obtain ⟨rt3, ms3, heq3, hkeys3, hms3⟩ :=
    remove_absent_spec (dictKeys rt2.incidents) rt2 (rows.map (fun r => r.id))
      (fun x hx => hx) hnd2 hnd2
  refine ⟨rt3, ms1 ++ ms2 ++ ms3, ?_, ?_, ?_⟩
  · simp only [RealTime.update, heq1, heq2, heq3]
  · intro k
    rw [hkeys3 k, hkeys2, hkeys1 k]
    tauto
  · intro k
    rw [List.count_append, List.count_append,
      List.count_eq_zero.mpr (hres1 k), List.count_eq_zero.mpr (hres2 k), hms3]
    simp only [Nat.zero_add]
    rw [List.count_map_of_injective _ Msg.resolved
      (fun a b hab => by injection hab) k]
    by_cases hks : k ∈ dictKeys rt.incidents ∧ k ∉ rows.map (fun r => r.id)
    · rw [if_pos hks]
      apply List.count_eq_one_of_mem (List.Nodup.filter _ hnd2)
      rw [List.mem_filter]
      refine ⟨?_, by simpa using hks.2⟩
      rw [hkeys2, hkeys1 k]
      exact Or.inl hks.1
    · rw [if_neg hks]
      apply List.count_eq_zero.mpr
      intro hkmem
      obtain ⟨hk1, hk2⟩ := List.mem_filter.mp hkmem
      have hk2x : k ∉ rows.map (fun r => r.id) := of_decide_eq_true hk2
      apply hks
      refine ⟨?_, hk2x⟩
      rw [hkeys2] at hk1
      rcases (hkeys1 k).mp hk1 with h | h
      · exact h
      · exact absurd h hk2x

/-- C1 witness: reconciling the snapshot holding only the new row B
against the monitor tracking only A. -/
theorem reconcile_keys_and_resolved_witness :
    (dictKeys rtWithA.incidents).Nodup ∧
    (∀ r ∈ [rowGoodTs], (strptime r.datetime).isSome = true) ∧
    reconcileSpec rtWithA [rowGoodTs] :=
  ⟨by decide, by decide,
    reconcile_keys_and_resolved rtWithA [rowGoodTs] (by decide) (by decide)⟩
